import Mathlib

/-!
# Verification of the bctl Bluetooth connect tool (src/bluetooth/main.go)

This file gives a shallow embedding of the core of `main.go`:

* the discovery goroutine started by `Bctl.Discover` (lines 106-152), modelled
  as a pure function from the stream of discovered-device events to the list
  of actions (logs, gate invocation, channel close) the goroutine performs;
* the `cancelOnce` idempotent gate built on `sync.Once` (lines 118-123),
  modelled as an explicit guard state (`sync.Once` serialises concurrent
  `Do` calls, so any interleaving of invocations behaves like a sequence);
* `Bctl.Wait` (lines 154-161), a two-way select modelled on the readiness of
  the two channels plus a tie-break choice for the case in which both are
  ready (Go's `select` picks a ready case pseudo-randomly);
* `Bctl.Connect` (lines 168-194), the retry loop over the three-way select
  {ctx.Done, ticker, once-token}, modelled with explicit per-iteration
  cancellation state, a scheduler choice for ready-case ties, and fuel;
* `Bctl.connect` (lines 196-218), one pair-then-connect attempt, modelled as
  a function from the outcomes of the four platform calls to the list of
  calls actually issued and the returned error.
-/

/-- Upper-case hex digit; models `hexDigit` of the tinygo bluetooth package
(`c + '0'` below 10, `c - 10 + 'A'` otherwise). -/
def hexDigit (c : Nat) : Char :=
  if c < 10 then Char.ofNat (c + 48) else Char.ofNat (c - 10 + 65)

/-- Models `bluetooth.MAC.String()`: the six octets are stored
least-significant first and rendered most-significant first as
colon-separated upper-case hex pairs. -/
def macString (mac : List Nat) : String :=
  String.intercalate ":"
    (mac.reverse.map (fun c => String.mk [hexDigit (c / 16), hexDigit (c % 16)]))

/-- One event received from the `devices` channel in the discovery goroutine
(main.go line 131), classified by how the two resolution steps for it turn
out: `dev a` resolves to address `a`; `newDeviceErr` fails in
`device.NewDevice1` (line 133); `getAddressErr` fails in `GetAddress`
(line 138). -/
inductive ScanEvent where
  | dev (addr : String)
  | newDeviceErr
  | getAddressErr
deriving DecidableEq, Repr

/-- An observable action of the discovery goroutine (main.go lines 125-149). -/
inductive DiscAction where
  | logStarted
  | logScanned
  | logNewDevErr
  | logGetAddrErr
  | logFound
  | invokeCancel
  | closeDone
deriving DecidableEq, Repr

/-- The `for gotDev := range devices` body (main.go lines 131-148): log the
scanned device, resolve it (log and `continue` on error), and `return` on
the first address equal — by Go string equality — to
`cli.deviceMAC.String()`. -/
def scanLoop (target : String) : List ScanEvent → List DiscAction
  | [] => []
  | ScanEvent.newDeviceErr :: rest =>
    DiscAction.logScanned :: DiscAction.logNewDevErr :: scanLoop target rest
  | ScanEvent.getAddressErr :: rest =>
    DiscAction.logScanned :: DiscAction.logGetAddrErr :: scanLoop target rest
  | ScanEvent.dev a :: rest =>
    if a == target then [DiscAction.logScanned, DiscAction.logFound]
    else DiscAction.logScanned :: scanLoop target rest

/-- How many events the discovery loop consumes from the stream before
returning (all of them unless a matching address is found). -/
def scanConsumed (target : String) : List ScanEvent → Nat
  | [] => 0
  | ScanEvent.newDeviceErr :: rest => scanConsumed target rest + 1
  | ScanEvent.getAddressErr :: rest => scanConsumed target rest + 1
  | ScanEvent.dev a :: rest =>
    if a == target then 1 else scanConsumed target rest + 1

/-- The whole goroutine of main.go lines 125-149: log start, run the loop,
then run the deferred statements in LIFO order — `cancelOnce()` (registered
second, line 127) strictly before `close(done)` (registered first,
line 126). -/
def discoverTrace (target : String) (events : List ScanEvent) : List DiscAction :=
  DiscAction.logStarted :: scanLoop target events
    ++ [DiscAction.invokeCancel, DiscAction.closeDone]

/-- State of the `sync.Once` inside `cancelOnce` (main.go lines 118-123). -/
structure OnceState where
  called : Bool
deriving DecidableEq, Repr

/-- `once.Do(cancel)`: runs `cancel` (second component `true`) exactly when
the guard has not fired yet.  `sync.Once` serialises concurrent callers, so
a history of concurrent invocations is a sequence of these atomic steps. -/
def onceDo (st : OnceState) : OnceState × Bool :=
  if st.called then (st, false) else (⟨true⟩, true)

/-- `n` successive invocations of `cancelOnce` starting from guard state
`st`; returns the final guard state and the number of times the underlying
`cancel` actually ran. -/
def invokeGate : OnceState → Nat → OnceState × Nat
  | st, 0 => (st, 0)
  | st, n + 1 =>
    let r := onceDo st
    let rest := invokeGate r.1 n
    (rest.1, (if r.2 then 1 else 0) + rest.2)

/-- Number of underlying `cancel` executions caused by the `invokeCancel`
actions of a trace, threading the `sync.Once` guard through it. -/
def stopCount : OnceState → List DiscAction → Nat
  | _, [] => 0
  | st, DiscAction.invokeCancel :: rest =>
    let r := onceDo st
    (if r.2 then 1 else 0) + stopCount r.1 rest
  | st, _ :: rest => stopCount st rest

/-- Whether an event is a match for the target under the code's comparison
(main.go line 144: `deviceAddr == cli.deviceMAC.String()`). -/
def eventMatches (target : String) : ScanEvent → Bool
  | ScanEvent.dev a => a == target
  | ScanEvent.newDeviceErr => false
  | ScanEvent.getAddressErr => false

/-- No event of the list matches the target. -/
def noMatch (target : String) (es : List ScanEvent) : Bool :=
  es.all (fun e => !eventMatches target e)

/-- ASCII upper-casing of one character (the canonicalization step of the
spec's comparison). -/
def upperChar (c : Char) : Char :=
  if 97 ≤ c.toNat ∧ c.toNat ≤ 122 then Char.ofNat (c.toNat - 32) else c

/-- The spec's notion of address equality (spec section 3: "equality is
case-insensitive string/byte comparison after canonicalization"), stated for
comparison against the code's exact string equality. -/
def specCaseInsensitiveEq (a b : String) : Bool :=
  a.data.map upperChar == b.data.map upperChar

/-- One of the four platform calls a connection attempt can issue
(main.go lines 196-218). -/
inductive CallStep where
  | newDevice
  | getPaired
  | pair
  | connectReq
deriving DecidableEq, Repr

/-- The error class a connection attempt returns (wrapped messages of
main.go lines 199, 204, 208, 213). -/
inductive ConnErr where
  | deviceResolution
  | pairingStateQuery
  | pairing
  | connection
deriving DecidableEq, Repr

/-- Outcomes the platform would give to the four calls of one attempt:
whether `device.NewDevice` succeeds, what `GetPaired` returns (`none` =
error), and whether `Pair` and `Connect` succeed if issued. -/
structure AttemptOutcome where
  newDeviceOk : Bool
  getPaired : Option Bool
  pairOk : Bool
  connectOk : Bool
deriving DecidableEq, Repr

namespace Bctl

/-- `Bctl.connect` (main.go lines 196-218): resolve the device, query the
pairing state, pair when not yet paired, then connect; stop at the first
failing call.  Returns the calls issued, in order, and the error if any. -/
def connect (o : AttemptOutcome) : List CallStep × Option ConnErr :=
  if !o.newDeviceOk then
    ([CallStep.newDevice], some ConnErr.deviceResolution)
  else
    match o.getPaired with
    | none => ([CallStep.newDevice, CallStep.getPaired], some ConnErr.pairingStateQuery)
    | some paired =>
      if !paired then
        if !o.pairOk then
          ([CallStep.newDevice, CallStep.getPaired, CallStep.pair], some ConnErr.pairing)
        else if !o.connectOk then
          ([CallStep.newDevice, CallStep.getPaired, CallStep.pair, CallStep.connectReq],
            some ConnErr.connection)
        else
          ([CallStep.newDevice, CallStep.getPaired, CallStep.pair, CallStep.connectReq], none)
      else if !o.connectOk then
        ([CallStep.newDevice, CallStep.getPaired, CallStep.connectReq], some ConnErr.connection)
      else
        ([CallStep.newDevice, CallStep.getPaired, CallStep.connectReq], none)

end Bctl

/-- How `Bctl.Connect` returns. -/
inductive ConnectResult where
  | ok
  | cancelled
deriving DecidableEq, Repr

/-- Which ready channel the select consumed for an attempt: the one-shot
buffered `once` token (main.go lines 172-173, 185) or the ticker
(line 184). -/
inductive Trigger where
  | immediate
  | timer
deriving DecidableEq, Repr

/-- Observable outcome of a `Bctl.Connect` run: the returned value, the
trigger of each attempt performed (in order), and how many
`"try to connect"` retry lines were logged (line 189). -/
structure ConnectRun where
  result : ConnectResult
  triggers : List Trigger
  retryLogs : Nat
deriving DecidableEq, Repr

/-- The `for { select ... }` loop of `Bctl.Connect` (main.go lines 180-193).
`cancelled i` says whether `ctx.Done()` is ready at the `i`-th select;
`pickDone i` resolves the tie when both `ctx.Done()` and a tick (the `once`
token at the first iteration, or the ticker — necessarily ready within the
3-second interval while an attempt, of unbounded duration, runs) are ready:
Go's `select` then picks a ready case pseudo-randomly.  `outcomes i` is the
platform's response to the `i`-th attempt.  `once` records whether the
buffered immediate token is still in its channel.  Fuel bounds the
unrolling; the loop itself has no bound. -/
def connectLoop (cancelled pickDone : Nat → Bool) (outcomes : Nat → AttemptOutcome) :
    Nat → Nat → Bool → Option ConnectRun
  | 0, _, _ => none
  | fuel + 1, i, once =>
    if cancelled i && pickDone i then
      some ⟨ConnectResult.cancelled, [], 0⟩
    else
      let t := if once then Trigger.immediate else Trigger.timer
      match (Bctl.connect (outcomes i)).2 with
      | none => some ⟨ConnectResult.ok, [t], 0⟩
      | some _ =>
        match connectLoop cancelled pickDone outcomes fuel (i + 1) false with
        | none => none
        | some r => some ⟨r.result, t :: r.triggers, r.retryLogs + 1⟩

/-- `Bctl.Connect` (main.go lines 168-194): the loop entered with the
immediate token pending in the `once` channel. -/
def Bctl.Connect (cancelled pickDone : Nat → Bool) (outcomes : Nat → AttemptOutcome)
    (fuel : Nat) : Option ConnectRun :=
  connectLoop cancelled pickDone outcomes fuel 0 true

/-- What `Bctl.Wait` returns. -/
inductive WaitResult where
  | ctxErr
  | ok
deriving DecidableEq, Repr

/-- `Bctl.Wait` (main.go lines 154-161): a two-way select on `ctx.Done()`
and `cli.discoveryDone`.  `pickCtx` resolves the tie when both are ready
(Go picks pseudo-randomly); when neither is ready the call blocks (`none`).
The `sync.Once` gate of the scan is passed through untouched: the body
contains no cancel invocation. -/
def Bctl.Wait (ctxDone discoveryDone pickCtx : Bool) (gate : OnceState) :
    Option WaitResult × OnceState :=
  (if ctxDone && discoveryDone then
      some (if pickCtx then WaitResult.ctxErr else WaitResult.ok)
    else if ctxDone then some WaitResult.ctxErr
    else if discoveryDone then some WaitResult.ok
    else none,
   gate)

-- Helper lemmas about the discovery loop.

theorem scanLoop_not_mem_cancel_close (t : String) (es : List ScanEvent) :
    DiscAction.invokeCancel ∉ scanLoop t es ∧ DiscAction.closeDone ∉ scanLoop t es := by
  induction es with
  | nil => simp [scanLoop]
  | cons e rest ih =>
    cases e with
    | dev a =>
      by_cases h : (a == t) = true <;> simp [scanLoop, h, ih.1, ih.2]
    | newDeviceErr => simp [scanLoop, ih.1, ih.2]
    | getAddressErr => simp [scanLoop, ih.1, ih.2]

theorem stopCount_append_of_not_mem (st : OnceState) (l1 l2 : List DiscAction)
    (h : DiscAction.invokeCancel ∉ l1) :
    stopCount st (l1 ++ l2) = stopCount st l2 := by
  induction l1 generalizing st with
  | nil => rfl
  | cons a rest ih =>
    have ha : a ≠ DiscAction.invokeCancel := by
      intro hEq; exact h (hEq ▸ List.mem_cons_self a rest)
    have hrest : DiscAction.invokeCancel ∉ rest := fun hm => h (List.mem_cons_of_mem a hm)
    cases a with
    | invokeCancel => exact absurd rfl ha
    | logStarted => simpa [stopCount] using ih st hrest
    | logScanned => simpa [stopCount] using ih st hrest
    | logNewDevErr => simpa [stopCount] using ih st hrest
    | logGetAddrErr => simpa [stopCount] using ih st hrest
    | logFound => simpa [stopCount] using ih st hrest
    | closeDone => simpa [stopCount] using ih st hrest

theorem discoverTrace_count_closeDone (t : String) (es : List ScanEvent) :
    (discoverTrace t es).count DiscAction.closeDone = 1 := by
  have h := (scanLoop_not_mem_cancel_close t es).2
  simp [discoverTrace, List.count_append, List.count_cons, List.count_eq_zero.mpr h]

theorem discoverTrace_stopCount (t : String) (es : List ScanEvent) :
    stopCount ⟨false⟩ (discoverTrace t es) = 1 := by
  have h := (scanLoop_not_mem_cancel_close t es).1
  have h2 : DiscAction.invokeCancel ∉ DiscAction.logStarted :: scanLoop t es := by
    simp only [List.mem_cons]
    rintro (h1 | h1)
    · exact absurd h1 (by simp)
    · exact h h1
  calc stopCount ⟨false⟩ (discoverTrace t es)
      = stopCount ⟨false⟩ ((DiscAction.logStarted :: scanLoop t es)
          ++ [DiscAction.invokeCancel, DiscAction.closeDone]) := rfl
    _ = stopCount ⟨false⟩ [DiscAction.invokeCancel, DiscAction.closeDone] :=
        stopCount_append_of_not_mem _ _ _ h2
    _ = 1 := rfl

theorem scanConsumed_all_of_noMatch (t : String) (es : List ScanEvent)
    (h : noMatch t es = true) :
    scanConsumed t es = es.length := by
  induction es with
  | nil => rfl
  | cons e rest ih =>
    have hall : (!eventMatches t e) = true ∧ noMatch t rest = true := by
      simpa [noMatch, List.all_cons] using h
    have hrest := ih hall.2
    cases e with
    | dev a =>
      have hne : (a == t) = false := by
        have := hall.1
        simp [eventMatches] at this
        simpa using this
      simp [scanConsumed, hne, hrest]
    | newDeviceErr => simp [scanConsumed, hrest]
    | getAddressErr => simp [scanConsumed, hrest]

theorem scanLoop_logFound_insert_newDeviceErr (t : String) (pre post : List ScanEvent) :
    (DiscAction.logFound ∈ scanLoop t (pre ++ ScanEvent.newDeviceErr :: post) ↔
      DiscAction.logFound ∈ scanLoop t (pre ++ post)) := by
  induction pre with
  | nil => simp [scanLoop]
  | cons e rest ih =>
    cases e with
    | dev a =>
      by_cases h : (a == t) = true <;> simp [scanLoop, h, ih]
    | newDeviceErr => simp [scanLoop, ih]
    | getAddressErr => simp [scanLoop, ih]

theorem scanLoop_logFound_insert_getAddressErr (t : String) (pre post : List ScanEvent) :
    (DiscAction.logFound ∈ scanLoop t (pre ++ ScanEvent.getAddressErr :: post) ↔
      DiscAction.logFound ∈ scanLoop t (pre ++ post)) := by
  induction pre with
  | nil => simp [scanLoop]
  | cons e rest ih =>
    cases e with
    | dev a =>
      by_cases h : (a == t) = true <;> simp [scanLoop, h, ih]
    | newDeviceErr => simp [scanLoop, ih]
    | getAddressErr => simp [scanLoop, ih]

theorem invokeGate_called (n : Nat) :
    invokeGate ⟨true⟩ n = (⟨true⟩, 0) := by
  induction n with
  | zero => rfl
  | succ m ih => simp [invokeGate, onceDo, ih]

theorem connectLoop_succ (cancelled pickDone : Nat → Bool) (outcomes : Nat → AttemptOutcome)
    (fuel i : Nat) (once : Bool) :
    connectLoop cancelled pickDone outcomes (fuel + 1) i once =
      if cancelled i && pickDone i then
        some ⟨ConnectResult.cancelled, [], 0⟩
      else
        match (Bctl.connect (outcomes i)).2 with
        | none =>
          some ⟨ConnectResult.ok, [if once then Trigger.immediate else Trigger.timer], 0⟩
        | some _ =>
          match connectLoop cancelled pickDone outcomes fuel (i + 1) false with
          | none => none
          | some r =>
            some ⟨r.result,
              (if once then Trigger.immediate else Trigger.timer) :: r.triggers,
              r.retryLogs + 1⟩ := rfl

theorem connectLoop_ok_general (pickDone : Nat → Bool) (outcomes : Nat → AttemptOutcome)
    (K : Nat) :
    ∀ fuel i once, (∀ j, j < K → (Bctl.connect (outcomes (i + j))).2 ≠ none) →
    (Bctl.connect (outcomes (i + K))).2 = none →
    connectLoop (fun _ => false) pickDone outcomes (fuel + K + 1) i once =
      some ⟨ConnectResult.ok,
        (if once then Trigger.immediate else Trigger.timer) :: List.replicate K Trigger.timer,
        K⟩ := by
  induction K with
  | zero =>
    intro fuel i once _ hok
    simp only [Nat.add_zero] at hok
    rw [connectLoop_succ]
    simp [hok]
  | succ K ih =>
    intro fuel i once hfail hok
    have h0 : (Bctl.connect (outcomes i)).2 ≠ none := by
      have := hfail 0 (Nat.succ_pos K)
      simpa using this
    obtain ⟨e, he⟩ : ∃ e, (Bctl.connect (outcomes i)).2 = some e := by
      cases h : (Bctl.connect (outcomes i)).2 with
      | none => exact absurd h h0
      | some e => exact ⟨e, rfl⟩
    have hrec := ih fuel (i + 1) false
      (fun j hj => by
        have := hfail (j + 1) (Nat.succ_lt_succ hj)
        simpa [Nat.add_assoc, Nat.add_comm 1 j] using this)
      (by
        have : i + 1 + K = i + (K + 1) := by omega
        rw [this]
        exact hok)
    have hfuel : fuel + (K + 1) + 1 = (fuel + K + 1) + 1 := by omega
    rw [hfuel, connectLoop_succ, he, hrec]
    simp [List.replicate_succ]

theorem scanConsumed_first_match (t : String) (pre post : List ScanEvent)
    (hpre : noMatch t pre = true) :
    scanConsumed t (pre ++ ScanEvent.dev t :: post) = pre.length + 1 := by
  induction pre with
  | nil => simp [scanConsumed]
  | cons e rest ih =>
    have hall : (!eventMatches t e) = true ∧ noMatch t rest = true := by
      simpa [noMatch, List.all_cons] using hpre
    have hrest := ih hall.2
    cases e with
    | dev a =>
      have hne : (a == t) = false := by
        have := hall.1
        simp [eventMatches] at this
        simpa using this
      simp [scanConsumed, hne, hrest, List.length_cons]
    | newDeviceErr =>
      simp [scanConsumed, hrest, List.length_cons]
    | getAddressErr =>
      simp [scanConsumed, hrest, List.length_cons]

-- Claim theorems.

/-- C1: for every sequence of discovered-peer events containing the target
address exactly once, the discovery goroutine stops consuming at the first
match (it reads `pre.length + 1` events, however long the tail is), the
`done` channel is closed exactly once, and the underlying scan stop runs
exactly once through the `cancelOnce` gate. -/
theorem discover_first_match (t : String) (pre post : List ScanEvent)
    (hpre : noMatch t pre = true) (hpost : noMatch t post = true) :
    scanConsumed t (pre ++ ScanEvent.dev t :: post) = pre.length + 1 ∧
    (discoverTrace t (pre ++ ScanEvent.dev t :: post)).count DiscAction.closeDone = 1 ∧
    stopCount ⟨false⟩ (discoverTrace t (pre ++ ScanEvent.dev t :: post)) = 1 :=
  ⟨scanConsumed_first_match t pre post hpre,
   discoverTrace_count_closeDone t _,
   discoverTrace_stopCount t _⟩

/-- Witness for C1: the spec's scenario — the target `AA:BB:CC:DD:EE:FF`
appears after two non-matching events, the loop stops after the third
event, the channel closes once, the stop runs once. -/
theorem discover_first_match_witness :
    noMatch "AA:BB:CC:DD:EE:FF"
      [ScanEvent.dev "11:22:33:44:55:66", ScanEvent.dev "77:88:99:AA:BB:CC"] = true ∧
    scanConsumed "AA:BB:CC:DD:EE:FF"
      ([ScanEvent.dev "11:22:33:44:55:66", ScanEvent.dev "77:88:99:AA:BB:CC"] ++
        ScanEvent.dev "AA:BB:CC:DD:EE:FF" :: []) = 3 ∧
    (discoverTrace "AA:BB:CC:DD:EE:FF"
      ([ScanEvent.dev "11:22:33:44:55:66", ScanEvent.dev "77:88:99:AA:BB:CC"] ++
        ScanEvent.dev "AA:BB:CC:DD:EE:FF" :: [])).count DiscAction.closeDone = 1 ∧
    stopCount ⟨false⟩ (discoverTrace "AA:BB:CC:DD:EE:FF"
      ([ScanEvent.dev "11:22:33:44:55:66", ScanEvent.dev "77:88:99:AA:BB:CC"] ++
        ScanEvent.dev "AA:BB:CC:DD:EE:FF" :: [])) = 1 := by
  have h := discover_first_match "AA:BB:CC:DD:EE:FF"
    [ScanEvent.dev "11:22:33:44:55:66", ScanEvent.dev "77:88:99:AA:BB:CC"]
    [] (by decide) (by decide)
  exact ⟨by decide, h.1, h.2.1, h.2.2⟩

/-- C2: invoking the `cancelOnce` capability any `n ≥ 1` times runs the
underlying stop exactly once; once the guard has fired, every further
invocation is a no-op.  `sync.Once` serialises concurrent `Do` calls, so a
concurrent history is one of these invocation sequences. -/
theorem cancelOnce_single_stop (n : Nat) (h : 1 ≤ n) :
    (invokeGate ⟨false⟩ n).2 = 1 ∧
    (∀ st : OnceState, st.called = true → onceDo st = (st, false)) := by
  constructor
  · obtain ⟨m, rfl⟩ : ∃ m, n = m + 1 := ⟨n - 1, by omega⟩
    simp [invokeGate, onceDo, invokeGate_called]
  · intro st hst
    simp [onceDo, hst]

/-- Witness for C2: three invocations yield one stop; the fired guard makes
an invocation a no-op. -/
theorem cancelOnce_single_stop_witness :
    (invokeGate ⟨false⟩ 3).2 = 1 ∧ onceDo ⟨true⟩ = (⟨true⟩, false) :=
  ⟨(cancelOnce_single_stop 3 (by decide)).1,
   (cancelOnce_single_stop 3 (by decide)).2 ⟨true⟩ rfl⟩

/-- C3: when the first `K` attempts fail and the `(K+1)`-th succeeds (the
context never cancelled), `Bctl.Connect` performs exactly `K+1` attempts —
the first triggered by the immediate token, the rest by the ticker — logs
exactly `K` retry lines, and returns no error. -/
theorem Connect_retry_until_success (K fuel : Nat) (pickDone : Nat → Bool)
    (outcomes : Nat → AttemptOutcome)
    (hfail : ∀ j, j < K → (Bctl.connect (outcomes j)).2 ≠ none)
    (hok : (Bctl.connect (outcomes K)).2 = none) :
    Bctl.Connect (fun _ => false) pickDone outcomes (fuel + K + 1) =
      some ⟨ConnectResult.ok, Trigger.immediate :: List.replicate K Trigger.timer, K⟩ := by
  have h := connectLoop_ok_general pickDone outcomes K fuel 0 true
    (fun j hj => by simpa using hfail j hj) (by simpa using hok)
  simpa [Bctl.Connect] using h

/-- Witness for C3: the spec's scenario — pairing query fails, then connect
fails, then the attempt succeeds: three attempts, two retry logs. -/
theorem Connect_retry_until_success_witness :
    Bctl.Connect (fun _ => false) (fun _ => false)
      (fun j => if j = 0 then ⟨true, none, true, true⟩
        else if j = 1 then ⟨true, some false, true, false⟩
        else ⟨true, some false, true, true⟩) 3 =
      some ⟨ConnectResult.ok, [Trigger.immediate, Trigger.timer, Trigger.timer], 2⟩ := by
  have h := Connect_retry_until_success 2 0 (fun _ => false)
    (fun j => if j = 0 then ⟨true, none, true, true⟩
      else if j = 1 then ⟨true, some false, true, false⟩
      else ⟨true, some false, true, true⟩)
    (by decide) (by decide)
  simpa [List.replicate] using h

/-- C4: one attempt issues its platform calls in the fixed order, stopping
at the first failure; the pair request is issued exactly when the device
resolved, the pairing query succeeded and reported not-paired; and the
attempt returns no error exactly when the connect request was issued and
succeeded. -/
theorem connect_attempt_ordered (o : AttemptOutcome) :
    ((Bctl.connect o).2 = none ↔
      (CallStep.connectReq ∈ (Bctl.connect o).1 ∧ o.connectOk = true)) ∧
    (CallStep.pair ∈ (Bctl.connect o).1 ↔
      (o.newDeviceOk = true ∧ o.getPaired = some false)) ∧
    ((Bctl.connect o).1 = [CallStep.newDevice] ∨
      (Bctl.connect o).1 = [CallStep.newDevice, CallStep.getPaired] ∨
      (Bctl.connect o).1 = [CallStep.newDevice, CallStep.getPaired, CallStep.pair] ∨
      (Bctl.connect o).1 =
        [CallStep.newDevice, CallStep.getPaired, CallStep.pair, CallStep.connectReq] ∨
      (Bctl.connect o).1 = [CallStep.newDevice, CallStep.getPaired, CallStep.connectReq]) := by
  obtain ⟨nd, gp, pr, co⟩ := o
  cases nd <;> cases pr <;> cases co <;>
    (cases gp with
      | none => decide
      | some b => cases b <;> decide)

/-- C5 (amended): with the context cancelled before the first select and the
select tie resolved in favour of the `ctx.Done()` case, `Bctl.Connect`
returns the cancellation error with no attempt performed and no retry
logged.  (Because the immediate token is already pending, Go's select may
instead pick it, running an attempt first — see the counterexample.) -/
theorem Connect_cancelled_no_attempt (cancelled pickDone : Nat → Bool)
    (outcomes : Nat → AttemptOutcome) (fuel : Nat)
    (hc : cancelled 0 = true) (hp : pickDone 0 = true) :
    Bctl.Connect cancelled pickDone outcomes (fuel + 1) =
      some ⟨ConnectResult.cancelled, [], 0⟩ := by
  rw [Bctl.Connect, connectLoop_succ]
  simp [hc, hp]

/-- Witness for C5 (amended). -/
theorem Connect_cancelled_no_attempt_witness :
    Bctl.Connect (fun _ => true) (fun _ => true)
      (fun _ => ⟨true, some true, true, true⟩) 1 =
      some ⟨ConnectResult.cancelled, [], 0⟩ :=
  Connect_cancelled_no_attempt (fun _ => true) (fun _ => true)
    (fun _ => ⟨true, some true, true, true⟩) 0 rfl rfl

/-- C5 counterexample: context cancelled from the start, but the three-way
select picks the pending immediate token; the attempt runs, succeeds, and
`Bctl.Connect` returns success — not the cancellation error — after one
attempt, contradicting "returns the context's cancellation error without
performing any ConnectionAttempt". -/
theorem Connect_cancelled_counterexample :
    Bctl.Connect (fun _ => true) (fun _ => false)
      (fun _ => ⟨true, some true, true, true⟩) 1 =
      some ⟨ConnectResult.ok, [Trigger.immediate], 0⟩ ∧
    ConnectResult.ok ≠ ConnectResult.cancelled := by
  exact ⟨rfl, by decide⟩

/-- C6: `Bctl.Wait` returns the context's error when only the context is
done, returns no error when only the discovery channel is closed, and in
every case leaves the cancellation gate untouched — it never stops the
scan itself. -/
theorem Wait_observational (pickCtx c d : Bool) (g : OnceState) :
    Bctl.Wait true false pickCtx g = (some WaitResult.ctxErr, g) ∧
    Bctl.Wait false true pickCtx g = (some WaitResult.ok, g) ∧
    (Bctl.Wait c d pickCtx g).2 = g :=
  ⟨rfl, rfl, rfl⟩

/-- C7 counterexample: `aa:bb:cc:dd:ee:ff` denotes the same 48-bit
identifier as the target (case-insensitively equal to its canonical
rendering), yet the scan loop — Go's `==` on line 144 — does not treat it
as a match. -/
theorem discover_case_counterexample :
    specCaseInsensitiveEq "aa:bb:cc:dd:ee:ff"
      (macString [0xFF, 0xEE, 0xDD, 0xCC, 0xBB, 0xAA]) = true ∧
    DiscAction.logFound ∉
      scanLoop (macString [0xFF, 0xEE, 0xDD, 0xCC, 0xBB, 0xAA])
        [ScanEvent.dev "aa:bb:cc:dd:ee:ff"] := by
  exact ⟨by decide, by decide⟩

/-- C7 (amended): a discovered address is treated as a match exactly when it
is byte-identical to the target's canonical upper-case colon-separated
rendering; addresses denoting the same identifier in another letter case
are not matched. -/
theorem discover_match_exact (t : String) (es : List ScanEvent) :
    DiscAction.logFound ∈ scanLoop t es ↔ ∃ a, ScanEvent.dev a ∈ es ∧ a = t := by
  induction es with
  | nil => simp [scanLoop]
  | cons e rest ih =>
    cases e with
    | dev a =>
      by_cases h : (a == t) = true
      · have ha : a = t := by simpa using h
        subst ha
        simp [scanLoop]
      · have hne : ¬a = t := by simpa using h
        have hne' : ¬t = a := fun h' => hne h'.symm
        simp [scanLoop, h, ih, hne, hne']
    | newDeviceErr => simp [scanLoop, ih]
    | getAddressErr => simp [scanLoop, ih]

/-- C8: for every stream with no matching event, when the stream closes the
goroutine falls out of the loop having consumed every event, and the `done`
channel is still closed — exactly once. -/
theorem discover_stream_closed (t : String) (es : List ScanEvent)
    (h : noMatch t es = true) :
    (discoverTrace t es).count DiscAction.closeDone = 1 ∧
    scanConsumed t es = es.length :=
  ⟨discoverTrace_count_closeDone t es, scanConsumed_all_of_noMatch t es h⟩

/-- Witness for C8. -/
theorem discover_stream_closed_witness :
    noMatch "AA:BB:CC:DD:EE:FF"
      [ScanEvent.dev "11:22:33:44:55:66", ScanEvent.newDeviceErr] = true ∧
    (discoverTrace "AA:BB:CC:DD:EE:FF"
      [ScanEvent.dev "11:22:33:44:55:66", ScanEvent.newDeviceErr]).count
        DiscAction.closeDone = 1 ∧
    scanConsumed "AA:BB:CC:DD:EE:FF"
      [ScanEvent.dev "11:22:33:44:55:66", ScanEvent.newDeviceErr] = 2 := by
  have h := discover_stream_closed "AA:BB:CC:DD:EE:FF"
    [ScanEvent.dev "11:22:33:44:55:66", ScanEvent.newDeviceErr] (by decide)
  exact ⟨by decide, h.1, h.2⟩

/-- C9: a failing per-event resolution step only adds a low-severity log and
moves on to the next event; whether a match is eventually found is
unchanged by inserting such an event anywhere, and the loop body itself
never closes the `done` channel nor runs the scan stop. -/
theorem discover_event_error_skip (t : String) (rest pre post : List ScanEvent) :
    scanLoop t (ScanEvent.newDeviceErr :: rest) =
      DiscAction.logScanned :: DiscAction.logNewDevErr :: scanLoop t rest ∧
    scanLoop t (ScanEvent.getAddressErr :: rest) =
      DiscAction.logScanned :: DiscAction.logGetAddrErr :: scanLoop t rest ∧
    (DiscAction.logFound ∈ scanLoop t (pre ++ ScanEvent.newDeviceErr :: post) ↔
      DiscAction.logFound ∈ scanLoop t (pre ++ post)) ∧
    (DiscAction.logFound ∈ scanLoop t (pre ++ ScanEvent.getAddressErr :: post) ↔
      DiscAction.logFound ∈ scanLoop t (pre ++ post)) ∧
    DiscAction.closeDone ∉ scanLoop t rest ∧
    stopCount ⟨false⟩ (scanLoop t rest) = 0 := by
  refine ⟨rfl, rfl, scanLoop_logFound_insert_newDeviceErr t pre post,
    scanLoop_logFound_insert_getAddressErr t pre post,
    (scanLoop_not_mem_cancel_close t rest).2, ?_⟩
  have h := stopCount_append_of_not_mem ⟨false⟩ (scanLoop t rest) []
    (scanLoop_not_mem_cancel_close t rest).1
  simpa using h

/-- C10: the goroutine's trace always ends with the deferred `cancelOnce()`
strictly before the deferred `close(done)`, and neither action occurs
earlier: when the completion channel closes, the stop has already been
driven through the gate. -/
theorem discover_cancel_before_close (t : String) (es : List ScanEvent) :
    ∃ body, discoverTrace t es = body ++ [DiscAction.invokeCancel, DiscAction.closeDone] ∧
      DiscAction.invokeCancel ∉ body ∧ DiscAction.closeDone ∉ body := by
  refine ⟨DiscAction.logStarted :: scanLoop t es, rfl, ?_, ?_⟩
  · simp [List.mem_cons, (scanLoop_not_mem_cancel_close t es).1]
  · simp [List.mem_cons, (scanLoop_not_mem_cancel_close t es).2]
